import Mathlib

/-!
Verification of the SongAnalytics repository: a paginated song-analytics
dashboard (React frontend in `frontend/src`, Flask backend described by the
project documentation).  The frontend components (`Pagination`, `Dashboard`,
`useSongsPage`, `SongsTable`, `downloadCSV`, `getSongsPage`) are embedded
directly from their JavaScript sources.  The backend core (normalizer,
paginator, title lookup) is not present in the source tree, so those
operations are modelled from the specification, as marked on each definition.
-/

namespace SongAnalytics

/-- Scalar value of a song attribute: the dataset holds strings (ids, titles)
and numbers (audio features). -/
inductive Value where
  | str (s : String)
  | num (n : Int)
deriving DecidableEq

/-- A song is a flat ordered mapping from attribute name to scalar value
(a JavaScript object / Python dict in the sources). -/
abbrev Song := List (String × Value)

/-- Column-oriented raw dataset: attribute name to a mapping from stringified
row index to value. -/
abbrev RawDataset := List (String × List (String × Value))

/-- Whitespace test used by the JS `trim` / Python `strip` models. -/
def wsChar (c : Char) : Bool := c == ' ' || c == '\t' || c == '\n' || c == '\r'

/-- Model of JavaScript `String.prototype.trim` and Python `str.strip`:
drop leading and trailing whitespace. -/
def trimStr (s : String) : String :=
  ⟨((s.data.dropWhile wsChar).reverse.dropWhile wsChar).reverse⟩

/-- Model of Python `str.casefold` (and JS lowercasing) at the character
level: map every character to lower case. -/
def lowerStr (s : String) : String := ⟨s.data.map Char.toLower⟩

/-- String coercion of a scalar, as JavaScript does when joining values. -/
def valueToString : Value → String
  | .str s => s
  | .num n => toString n

/-! ## Pagination component (frontend/src/components/Pagination.js) -/

/-- Result of JavaScript `Number(x)` on a prop: either a number or `NaN`
(for non-numeric input such as `undefined` or a non-numeric string). -/
inductive JSNum where
  | nan
  | int (n : Int)
deriving DecidableEq

/-- Model of `Number(totalPages) || 1`: `NaN` and `0` are falsy, any other
number passes through. -/
def numberOr1 : JSNum → Int
  | .nan => 1
  | .int n => if n = 0 then 1 else n

/-- From Pagination.js: `const safeTotalPages = Math.max(Number(totalPages) || 1, 1)`. -/
def safeTotalPages (totalPages : JSNum) : Int := max (numberOr1 totalPages) 1

/-- From Pagination.js: `const isFirstPage = page <= 1`. -/
def isFirstPage (page : Int) : Bool := page ≤ 1

/-- From Pagination.js: `const isLastPage = page >= safeTotalPages`. -/
def isLastPage (page : Int) (totalPages : JSNum) : Bool :=
  page ≥ safeTotalPages totalPages

/-- Pagination.js `handlePrev` guarding Dashboard.js
`onPrev = () => setPage((p) => Math.max(1, p - 1))`: the resulting page. -/
def handlePrev (totalPages : JSNum) (page : Int) : Int :=
  if isFirstPage page then page else max 1 (page - 1)

/-- Pagination.js `handleNext` guarding Dashboard.js
`onNext = () => setPage((p) => p + 1)`: the resulting page. -/
def handleNext (totalPages : JSNum) (page : Int) : Int :=
  if isLastPage page totalPages then page else page + 1

/-- A user navigation request: pressing Next or Previous. -/
inductive NavAction where
  | next
  | prev
deriving DecidableEq

/-- One navigation step of the Pagination component. -/
def navStep (totalPages : JSNum) (page : Int) : NavAction → Int
  | .next => handleNext totalPages page
  | .prev => handlePrev totalPages page

/-- The page reached after a sequence of navigation requests. -/
def navRun (totalPages : JSNum) (page : Int) (acts : List NavAction) : Int :=
  acts.foldl (navStep totalPages) page

/-! ## Paginator (backend services layer; modelled from the spec) -/

/-- Pagination metadata and slice returned by the backend for `GET /songs`. -/
structure PageResult where
  page : Int
  size : Nat
  total : Nat
  total_pages : Nat
  songs : List Song
deriving DecidableEq

/-- Modelled from the spec: size substitution — if `size` is missing,
non-numeric (`none`), zero, or negative, substitute the default 10. -/
def sizeOrDefault : Option Int → Nat
  | none => 10
  | some s => if s ≤ 0 then 10 else s.toNat

/-- Modelled from the spec: page substitution — if `page` is missing or
non-numeric (`none`), substitute 1. -/
def pageOrDefault : Option Int → Int
  | none => 1
  | some p => p

/-- Modelled from the spec: bounds computation, clamping and slicing of the
backend paginator over already-substituted inputs (`sz ≥ 1`):
`total_pages = max(ceil(total / size), 1)`, requested page clamped into
`[1, total_pages]`, songs = `items[(page-1)*size : (page-1)*size + size]`. -/
def paginateCore (items : List Song) (p0 : Int) (sz : Nat) : PageResult :=
  let total : Nat := items.length
  let tp : Nat := max ((total + sz - 1) / sz) 1
  let p : Int := if p0 < 1 then 1 else if p0 > (tp : Int) then (tp : Int) else p0
  { page := p
    size := sz
    total := total
    total_pages := tp
    songs := (items.drop ((p - 1).toNat * sz)).take sz }

/-- Modelled from the spec: the backend paginator `paginate_songs` in
`backend/src/services.py`, which is not in the source tree.  `none` stands
for a missing or non-numeric query parameter. -/
def paginate (items : List Song) (page : Option Int) (size : Option Int) : PageResult :=
  paginateCore items (pageOrDefault page) (sizeOrDefault size)

/-! ## useSongsPage hook (frontend/src/hooks/useSongsPage.js) -/

/-- Shape of the JSON body `loadPage` reads from `getSongsPage`; each field
may be absent (`none` also stands for `null`/`undefined`). -/
structure FetchedPage where
  songs : Option (List Song)
  page : Option Int
  total : Option Int
  total_pages : Option Int

/-- The slice of hook state that `loadPage` writes. -/
structure ViewState where
  songs : List Song
  page : Int
  total : Int
  totalPages : Int
  searchError : String
deriving DecidableEq

/-- Model of JavaScript `x || d` on a number field: `undefined`, `null` and
`0` are falsy and yield the default. -/
def orNum (x : Option Int) (d : Int) : Int :=
  match x with
  | none => d
  | some n => if n = 0 then d else n

/-- From useSongsPage.js `loadPage`: the state written from a fetch result;
`Except.error` is the catch branch taken when the fetch throws. -/
def loadPage (result : Except Unit FetchedPage) : ViewState :=
  match result with
  | .ok data =>
    { songs := data.songs.getD []
      page := orNum data.page 1
      total := data.total.getD 0
      totalPages := data.total_pages.getD 1
      searchError := "" }
  | .error _ =>
    { songs := []
      page := 1
      total := 0
      totalPages := 1
      searchError := "Failed to load songs." }

/-- From useSongsPage.js: `const PAGE_SIZE = 10`. -/
def PAGE_SIZE : Nat := 10

/-- From getSongsPage.js: the query parameters sent to `GET /songs`. -/
def getSongsPage (pageNumber : Int) (size : Nat) : List (String × String) :=
  [("page", toString pageNumber), ("size", toString size)]

/-- From useSongsPage.js `loadPage(pageNumber = 1)`: the request it issues;
`none` models a call without an argument, taking the JS default parameter. -/
def loadPageRequest (pageNumber : Option Int) : List (String × String) :=
  getSongsPage (pageNumber.getD 1) PAGE_SIZE

/-! ## Title lookup (backend; modelled from the spec) and frontend search -/

/-- Modelled from the spec: title normalization for the index — case-fold the
title, strip leading/trailing whitespace. -/
def normalizeTitle (t : String) : String := lowerStr (trimStr t)

/-- Failure modes of `get_by_title`. -/
inductive TitleError where
  | invalidArgument
  | notFound
deriving DecidableEq

/-- Modelled from the spec: `get_by_title` in the backend query service,
which is not in the source tree.  A title blank after trimming fails with
`InvalidArgumentError`; otherwise the normalized title is looked up in the
title index, giving the song or `NotFoundError`. -/
def get_by_title (title_index : List (String × Song)) (title : String) :
    Except TitleError Song :=
  if trimStr title = "" then .error .invalidArgument
  else
    match List.lookup (normalizeTitle title) title_index with
    | some song => .ok song
    | none => .error .notFound

/-- From useSongsPage.js `handleSearch`: the request it issues, `none` when
validation rejects a title that is blank after trimming (no fetch happens). -/
def handleSearch (searchTitle : String) : Option String :=
  if trimStr searchTitle = "" then none else some (trimStr searchTitle)

/-! ## Normalizer (backend `normalize.py`; modelled from the spec) -/

/-- Modelled from the spec: build one Song for the row keyed `key` by reading
`raw[attr][key]` for every attribute `attr`, in attribute order; `none` when
some attribute mapping is missing the key (a KeyError in the source). -/
def buildSong : RawDataset → String → Option Song
  | [], _ => some []
  | (attr, m) :: rest, key =>
    match List.lookup key m, buildSong rest key with
    | some v, some song => some ((attr, v) :: song)
    | _, _ => none

/-- Modelled from the spec: build the rows for the given list of row keys,
in order; `none` as soon as one row fails. -/
def normRows (raw : RawDataset) : List String → Option (List Song)
  | [] => some []
  | k :: ks =>
    match buildSong raw k, normRows raw ks with
    | some s, some ss => some (s :: ss)
    | _, _ => none

/-- Modelled from the spec: `normalize(raw)` in `backend/src/normalize.py`,
which is not in the source tree.  Row count is the size of the first
attribute's mapping; a raw dataset that is empty or has attribute mappings of
inconsistent cardinality fails with `MalformedDatasetError`; otherwise one
Song is built per row index `i` in `[0, row_count)` from keys `str(i)`. -/
def normalize (raw : RawDataset) : Except String (List Song) :=
  match raw with
  | [] => .error "MalformedDatasetError"
  | (_, m0) :: rest =>
    if rest.all (fun p => p.2.length == m0.length) then
      match normRows raw ((List.range m0.length).map Nat.repr) with
      | some songs => .ok songs
      | none => .error "MalformedDatasetError"
    else .error "MalformedDatasetError"

/-- A valid RawDataset with row count `rc`: non-empty, attribute names
distinct (JSON object keys), and every attribute mapping keyed exactly by
`"0", "1", ..., str(rc-1)` in row order. -/
def ValidRaw (raw : RawDataset) (rc : Nat) : Prop :=
  raw ≠ [] ∧ (raw.map Prod.fst).Nodup ∧
    ∀ p ∈ raw, p.2.map Prod.fst = (List.range rc).map Nat.repr

/-- A small concrete column-oriented dataset used to exercise `normalize`. -/
def rawExample : RawDataset :=
  [("id", [("0", Value.num 7), ("1", Value.num 8)]),
    ("title", [("0", Value.str "a"), ("1", Value.str "b")])]

/-- The row-oriented form of `rawExample`. -/
def songsExample : List Song :=
  [[("id", Value.num 7), ("title", Value.str "a")],
    [("id", Value.num 8), ("title", Value.str "b")]]

/-! ## SongsTable (frontend/src/components/SongsTable.js) -/

/-- Model of `a.localeCompare(b)` on strings: sign of lexicographic order. -/
def localeCompare (a b : String) : Int :=
  if a < b then -1 else if b < a then 1 else 0

/-- From SongsTable.js: the sort comparator.  `typeof valA === "string"`
takes the localeCompare branch (the other operand coerced to a string);
otherwise numeric subtraction.  Comparisons the source leaves to NaN
arithmetic (a missing field, or number minus string) are modelled as 0. -/
def songCompare (sortField sortOrder : String) (a b : Song) : Int :=
  match List.lookup sortField a, List.lookup sortField b with
  | some (.str valA), valB =>
    let vb := (valB.map valueToString).getD ""
    if sortOrder = "asc" then localeCompare valA vb else localeCompare vb valA
  | some (.num valA), some (.num valB) =>
    if sortOrder = "asc" then valA - valB else valB - valA
  | _, _ => 0

/-- Stable insertion of a song into a list under `le`. -/
def insertSorted (le : Song → Song → Bool) (x : Song) : List Song → List Song
  | [] => [x]
  | y :: ys => if le x y then x :: y :: ys else y :: insertSorted le x ys

/-- Model of JavaScript `Array.prototype.sort` with a comparator: a sort of
the list by "comparator result ≤ 0". -/
def sortSongs (le : Song → Song → Bool) : List Song → List Song
  | [] => []
  | x :: xs => insertSorted le x (sortSongs le xs)

/-- A heap of arrays, so that copying and in-place sorting are explicit:
a pointer is an index into the heap. -/
structure Heap where
  arrays : List (List Song)

/-- Dereference a pointer (an invalid pointer reads as empty). -/
def heapGet (h : Heap) (ptr : Nat) : List Song := h.arrays.getD ptr []

/-- From SongsTable.js `const data = [...songs]`: allocate a fresh array with
the same contents and return its pointer. -/
def spreadCopy (h : Heap) (ptr : Nat) : Heap × Nat :=
  (⟨h.arrays ++ [heapGet h ptr]⟩, h.arrays.length)

/-- JavaScript `arr.sort(cmp)` mutates the array in place. -/
def sortInPlace (h : Heap) (ptr : Nat) (le : Song → Song → Bool) : Heap :=
  ⟨h.arrays.set ptr (sortSongs le (heapGet h ptr))⟩

/-- From SongsTable.js: the `sortedSongs` memo body.  Copy the `songs` prop;
if `sortField` is null return the copy, else sort the copy in place with the
comparator.  Returns the heap after the operation and the result pointer. -/
def sortedSongs (h : Heap) (songsPtr : Nat) (sortField : Option String)
    (sortOrder : String) : Heap × Nat :=
  let copied := spreadCopy h songsPtr
  match sortField with
  | none => copied
  | some field =>
    (sortInPlace copied.1 copied.2
        (fun a b => songCompare field sortOrder a b ≤ 0),
      copied.2)

/-! ## downloadCSV (frontend/src/utils/downloadCSV.js) -/

/-- Values of a row in order, coerced to strings (JS `Object.values` join). -/
def rowValues (row : Song) : List String := row.map (fun p => valueToString p.2)

/-- From downloadCSV.js: the CSV text whose download the call triggers, or
`none` when the function returns early having done nothing (`rows` null,
undefined, or empty).  Header is the first row's keys joined by commas, then
one comma-joined line of values per row, with no quoting. -/
def downloadCSV (rows : Option (List Song)) : Option String :=
  match rows with
  | none => none
  | some [] => none
  | some (r0 :: rest) =>
    let header := String.intercalate "," (r0.map Prod.fst)
    let data := String.intercalate "\n"
      ((r0 :: rest).map (fun row => String.intercalate "," (rowValues row)))
    some (header ++ "\n" ++ data)

/-! ## handleSort (frontend/src/hooks/useSongsPage.js) -/

/-- The sorting state of the hook: `sortField` starts as null. -/
structure SortState where
  sortField : Option String
  sortOrder : String
deriving DecidableEq

/-- From useSongsPage.js `handleSort`: clicking the same field toggles
asc/desc; clicking a new field selects it and resets to asc. -/
def handleSort (field : String) (st : SortState) : SortState :=
  if st.sortField = some field then
    { st with sortOrder := if st.sortOrder = "asc" then "desc" else "asc" }
  else
    { sortField := some field, sortOrder := "asc" }

/-! ## Helper lemmas -/

theorem one_le_safeTotalPages (tp : JSNum) : 1 ≤ safeTotalPages tp :=
  le_max_right _ _

theorem intercalate_go_append (l : List String) (acc x s : String) :
    String.intercalate.go (acc ++ x) s l = acc ++ String.intercalate.go x s l := by
  induction l generalizing x with
  | nil => rfl
  | cons b bs ih =>
    show String.intercalate.go (acc ++ x ++ s ++ b) s bs = _
    rw [String.append_assoc, String.append_assoc, ← String.append_assoc x s b, ih]
    rfl

theorem intercalate_cons_cons (s a x : String) (xs : List String) :
    String.intercalate s (a :: x :: xs) =
      a ++ s ++ String.intercalate s (x :: xs) := by
  show String.intercalate.go (a ++ s ++ x) s xs =
    a ++ s ++ String.intercalate.go x s xs
  exact intercalate_go_append xs (a ++ s) x s

theorem navStep_bounds (tp : JSNum) (page : Int) (a : NavAction)
    (h1 : 1 ≤ page) (h2 : page ≤ safeTotalPages tp) :
    1 ≤ navStep tp page a ∧ navStep tp page a ≤ safeTotalPages tp := by
  have hstp := one_le_safeTotalPages tp
  cases a <;>
    simp only [navStep, handleNext, handlePrev, isLastPage, isFirstPage,
      ge_iff_le, decide_eq_true_eq] <;>
    split <;> constructor <;> omega

theorem navRun_bounds (tp : JSNum) (acts : List NavAction) (page : Int)
    (h1 : 1 ≤ page) (h2 : page ≤ safeTotalPages tp) :
    1 ≤ navRun tp page acts ∧ navRun tp page acts ≤ safeTotalPages tp := by
  induction acts generalizing page with
  | nil => exact ⟨h1, h2⟩
  | cons a as ih =>
    have hstep := navStep_bounds tp page a h1 h2
    simpa [navRun, List.foldl_cons] using ih (navStep tp page a) hstep.1 hstep.2

theorem paginateCore_page_bounds (items : List Song) (p0 : Int) (sz : Nat) :
    1 ≤ (paginateCore items p0 sz).page ∧
      (paginateCore items p0 sz).page ≤ ((paginateCore items p0 sz).total_pages : Int) := by
  simp only [paginateCore]
  have htp : 1 ≤ max ((items.length + sz - 1) / sz) 1 := Nat.le_max_right _ _
  constructor <;> split_ifs <;> omega

theorem lookup_isSome_of_mem_keys {m : List (String × Value)} {k : String}
    (h : k ∈ m.map Prod.fst) : ∃ v, List.lookup k m = some v := by
  induction m with
  | nil => simp at h
  | cons p rest ih =>
    obtain ⟨a, v⟩ := p
    by_cases heq : k = a
    · subst heq
      exact ⟨v, by simp [List.lookup]⟩
    · have hb : (k == a) = false := beq_eq_false_iff_ne.mpr heq
      have hmem : k ∈ rest.map Prod.fst := by simpa [heq] using h
      obtain ⟨w, hw⟩ := ih hmem
      exact ⟨w, by simp [List.lookup, hb, hw]⟩

theorem lookup_cons_ne {song : Song} {a attr : String} {v : Value}
    (hne : a ≠ attr) :
    List.lookup a ((attr, v) :: song) = List.lookup a song := by
  have hb : (a == attr) = false := beq_eq_false_iff_ne.mpr hne
  simp [List.lookup, hb]

theorem lookup_cons_self {song : Song} {a : String} {v : Value} :
    List.lookup a ((a, v) :: song) = some v := by
  simp [List.lookup]

theorem buildSong_isSome {raw : RawDataset} {rc : Nat}
    (hk : ∀ p ∈ raw, p.2.map Prod.fst = (List.range rc).map Nat.repr)
    {i : Nat} (hi : i < rc) :
    ∃ song, buildSong raw (Nat.repr i) = some song := by
  induction raw with
  | nil => exact ⟨[], rfl⟩
  | cons p rest ih =>
    obtain ⟨attr, m⟩ := p
    have hm : m.map Prod.fst = (List.range rc).map Nat.repr :=
      hk _ (List.mem_cons_self _ _)
    have hkey : Nat.repr i ∈ m.map Prod.fst := by
      rw [hm]
      exact List.mem_map_of_mem _ (List.mem_range.mpr hi)
    obtain ⟨v, hv⟩ := lookup_isSome_of_mem_keys hkey
    obtain ⟨song, hsong⟩ := ih (fun q hq => hk q (List.mem_cons_of_mem _ hq))
    exact ⟨(attr, v) :: song, by simp [buildSong, hv, hsong]⟩

theorem buildSong_lookup {raw : RawDataset} {key : String} {song : Song}
    (hnd : (raw.map Prod.fst).Nodup)
    (hs : buildSong raw key = some song) :
    ∀ a m, (a, m) ∈ raw → List.lookup a song = List.lookup key m := by
  induction raw generalizing song with
  | nil =>
    intro a m hm
    simp at hm
  | cons p rest ih =>
    obtain ⟨attr, mm⟩ := p
    cases hlv : List.lookup key mm with
    | none => simp [buildSong, hlv] at hs
    | some v =>
      cases hbs : buildSong rest key with
      | none => simp [buildSong, hlv, hbs] at hs
      | some tailSong =>
        have hsEq : song = (attr, v) :: tailSong := by
          simp [buildSong, hlv, hbs] at hs
          exact hs.symm
        subst hsEq
        have hnd2 : (attr :: rest.map Prod.fst).Nodup := by simpa using hnd
        have hndc := List.nodup_cons.mp hnd2
        intro a m hm
        rcases List.mem_cons.mp hm with heq | hmem
        · have ha : a = attr := congrArg Prod.fst heq
          have hm2 : m = mm := congrArg Prod.snd heq
          subst ha
          subst hm2
          rw [lookup_cons_self, hlv]
        · have hne : a ≠ attr := by
            intro hE
            subst hE
            exact hndc.1 (List.mem_map_of_mem Prod.fst hmem)
          rw [lookup_cons_ne hne]
          exact ih hndc.2 hbs a m hmem

theorem buildSong_keys {raw : RawDataset} {key : String} {song : Song}
    (hs : buildSong raw key = some song) :
    song.map Prod.fst = raw.map Prod.fst := by
  induction raw generalizing song with
  | nil =>
    simp [buildSong] at hs
    subst hs
    rfl
  | cons p rest ih =>
    obtain ⟨attr, mm⟩ := p
    cases hlv : List.lookup key mm with
    | none => simp [buildSong, hlv] at hs
    | some v =>
      cases hbs : buildSong rest key with
      | none => simp [buildSong, hlv, hbs] at hs
      | some tailSong =>
        have hsEq : song = (attr, v) :: tailSong := by
          simp [buildSong, hlv, hbs] at hs
          exact hs.symm
        subst hsEq
        simp [ih hbs]

theorem normRows_ok {raw : RawDataset} : ∀ {ks : List String},
    (∀ k ∈ ks, ∃ s, buildSong raw k = some s) →
    ∃ ss, normRows raw ks = some ss ∧ ss.length = ks.length ∧
      ∀ j, j < ks.length → buildSong raw (ks.getD j "") = some (ss.getD j []) := by
  intro ks
  induction ks with
  | nil => exact fun _ => ⟨[], rfl, rfl, fun j hj => by simp at hj⟩
  | cons k ks ih =>
    intro h
    obtain ⟨s, hsome⟩ := h k (List.mem_cons_self _ _)
    obtain ⟨ss, hss, hlen, hidx⟩ := ih (fun k' hk' => h k' (List.mem_cons_of_mem _ hk'))
    refine ⟨s :: ss, by simp [normRows, hsome, hss], by simp [hlen], ?_⟩
    intro j hj
    cases j with
    | zero => simpa using hsome
    | succ jj => simpa using hidx jj (by simpa using hj)

theorem getD_set_ne {α : Type} (l : List α) (i j : Nat) (hne : i ≠ j) (a d : α) :
    (l.set j a).getD i d = l.getD i d := by
  induction l generalizing i j with
  | nil => rfl
  | cons x xs ih =>
    cases j with
    | zero =>
      cases i with
      | zero => exact absurd rfl hne
      | succ k => rfl
    | succ m =>
      cases i with
      | zero => rfl
      | succ k => exact ih k m (fun h => hne (by omega))

/-! ## Claim theorems -/

/-- C1: the current page stays in `[1, total_pages]` — the paginator clamps
a requested page below 1 to 1 and above total_pages to total_pages, and in
the UI Previous on page 1 and Next on the last page are no-ops, so no
sequence of navigation requests moves the page out of range. -/
theorem c1_page_stays_in_range :
    (∀ items page size, 1 ≤ (paginate items page size).page ∧
        (paginate items page size).page ≤ ((paginate items page size).total_pages : Int)) ∧
    (∀ items p size, p < 1 → (paginate items (some p) size).page = 1) ∧
    (∀ items p size, ((paginate items (some p) size).total_pages : Int) < p →
        (paginate items (some p) size).page =
          ((paginate items (some p) size).total_pages : Int)) ∧
    (∀ tp page acts, 1 ≤ page → page ≤ safeTotalPages tp →
        1 ≤ navRun tp page acts ∧ navRun tp page acts ≤ safeTotalPages tp) ∧
    (∀ tp, handlePrev tp 1 = 1) ∧
    (∀ tp page, page = safeTotalPages tp → handleNext tp page = page) := by
  refine ⟨fun items page size => paginateCore_page_bounds items _ _,
    fun items p size hp => ?_, fun items p size hp => ?_,
    fun tp page acts h1 h2 => navRun_bounds tp acts page h1 h2,
    fun tp => ?_, fun tp page hp => ?_⟩
  · simp only [paginate, paginateCore, pageOrDefault]
    rw [if_pos hp]
  · simp only [paginate, paginateCore, pageOrDefault] at hp ⊢
    have htp : 1 ≤ max ((items.length + sizeOrDefault size - 1) / sizeOrDefault size) 1 :=
      Nat.le_max_right _ _
    split_ifs <;> omega
  · simp [handlePrev, isFirstPage]
  · have := one_le_safeTotalPages tp
    simp only [handleNext, isLastPage, ge_iff_le, decide_eq_true_eq]
    rw [if_pos (by omega)]

theorem c1_page_stays_in_range_witness :
    ((-2 : Int) < 1 ∧ (paginate [] (some (-2)) none).page = 1) ∧
    (((paginate [[("id", Value.num 1)]] (some 9) none).total_pages : Int) < 9 ∧
      (paginate [[("id", Value.num 1)]] (some 9) none).page =
        ((paginate [[("id", Value.num 1)]] (some 9) none).total_pages : Int)) ∧
    ((1 : Int) ≤ 2 ∧ (2 : Int) ≤ safeTotalPages (.int 3) ∧
      1 ≤ navRun (.int 3) 2 [.next, .next, .prev] ∧
      navRun (.int 3) 2 [.next, .next, .prev] ≤ safeTotalPages (.int 3)) ∧
    ((3 : Int) = safeTotalPages (.int 3) ∧ handleNext (.int 3) 3 = 3) :=
  ⟨⟨by decide, c1_page_stays_in_range.2.1 [] (-2) none (by decide)⟩,
    ⟨by decide, c1_page_stays_in_range.2.2.1 [[("id", Value.num 1)]] 9 none (by decide)⟩,
    ⟨by decide, by decide,
      c1_page_stays_in_range.2.2.2.1 (.int 3) 2 [.next, .next, .prev]
        (by decide) (by decide)⟩,
    ⟨by decide, c1_page_stays_in_range.2.2.2.2.2 (.int 3) 3 (by decide)⟩⟩

/-- C2: the reported total_pages is always at least 1 — the paginator
computes `total_pages = max(ceil(total / size), 1)`, and the Pagination UI
normalizes any `totalPages` prop (non-numeric and 0 included) to at least 1. -/
theorem c2_total_pages_at_least_one :
    (∀ items page size, 1 ≤ (paginate items page size).total_pages) ∧
    (∀ tp : JSNum, 1 ≤ safeTotalPages tp) :=
  ⟨fun _ _ _ => Nat.le_max_right _ _, fun _ => le_max_right _ _⟩

/-- C3: normalization round-trip — for every valid RawDataset `raw`,
`normalize raw` succeeds with as many songs as rows, and for every attribute
`a` and row index `i`, looking up `a` in row `i` of the output gives
`raw[a][str(i)]`; output order is ascending row index. -/
theorem c3_normalize_round_trip (raw : RawDataset) (rc : Nat) (hv : ValidRaw raw rc) :
    ∃ songs, normalize raw = .ok songs ∧ songs.length = rc ∧
      (∀ i, i < rc → (songs.getD i []).map Prod.fst = raw.map Prod.fst) ∧
      ∀ i, i < rc → ∀ a m, (a, m) ∈ raw →
        List.lookup a (songs.getD i []) = List.lookup (Nat.repr i) m := by
  obtain ⟨hne, hnd, hk⟩ := hv
  cases raw with
  | nil => exact absurd rfl hne
  | cons p rest =>
    obtain ⟨a0, m0⟩ := p
    have hm0 : m0.map Prod.fst = (List.range rc).map Nat.repr :=
      hk _ (List.mem_cons_self _ _)
    have hm0len : m0.length = rc := by
      have := congrArg List.length hm0
      simpa using this
    have hall : rest.all (fun q => q.2.length == m0.length) = true := by
      rw [List.all_eq_true]
      intro q hq
      have hq' : q.2.map Prod.fst = (List.range rc).map Nat.repr :=
        hk _ (List.mem_cons_of_mem _ hq)
      have hqlen : q.2.length = rc := by
        have := congrArg List.length hq'
        simpa using this
      simp [hqlen, hm0len]
    have hkeys : ∀ k ∈ (List.range m0.length).map Nat.repr,
        ∃ s, buildSong ((a0, m0) :: rest) k = some s := by
      intro k hkmem
      rw [hm0len] at hkmem
      obtain ⟨i, hi, rfl⟩ := List.mem_map.mp hkmem
      exact buildSong_isSome hk (List.mem_range.mp hi)
    obtain ⟨ss, hss, hlen, hidx⟩ := normRows_ok hkeys
    have hbsAt : ∀ i, i < rc →
        buildSong ((a0, m0) :: rest) (Nat.repr i) = some (ss.getD i []) := by
      intro i hi
      have hgetD : ((List.range m0.length).map Nat.repr).getD i "" = Nat.repr i := by
        rw [List.getD_eq_getElem _ _ (by simpa [hm0len] using hi)]
        simp [hm0len, hi]
      have hbs := hidx i (by simpa [hm0len] using hi)
      rwa [hgetD] at hbs
    refine ⟨ss, ?_, ?_, ?_, ?_⟩
    · simp [normalize, hall, hss]
    · rw [hlen, List.length_map, List.length_range, hm0len]
    · intro i hi
      exact buildSong_keys (hbsAt i hi)
    · intro i hi a m hm
      exact buildSong_lookup hnd (hbsAt i hi) a m hm

theorem c3_normalize_round_trip_witness :
    ValidRaw rawExample 2 ∧
    normalize rawExample = .ok songsExample ∧
    songsExample.length = 2 ∧
    (songsExample.getD 0 []).map Prod.fst = rawExample.map Prod.fst ∧
    List.lookup "title" (songsExample.getD 1 []) =
      List.lookup (Nat.repr 1) [("0", Value.str "a"), ("1", Value.str "b")] := by
  obtain ⟨songs, h1, h2, h3, h4⟩ := c3_normalize_round_trip rawExample 2
    (by unfold ValidRaw rawExample; decide)
  have hok : normalize rawExample = .ok songsExample := rfl
  have hEq : songs = songsExample := by
    rw [h1] at hok
    exact Except.ok.inj hok
  subst hEq
  refine ⟨by unfold ValidRaw rawExample; decide, h1, h2, h3 0 (by decide), ?_⟩
  exact h4 1 (by decide) "title" [("0", Value.str "a"), ("1", Value.str "b")]
    (by decide)

/-- C4: a title blank after trimming is rejected with `InvalidArgumentError`
(never `NotFoundError`) by the lookup, and the frontend `handleSearch`
rejects it before issuing any request. -/
theorem c4_blank_title_rejected :
    (∀ idx title, trimStr title = "" →
        get_by_title idx title = .error .invalidArgument) ∧
    (∀ s, trimStr s = "" → handleSearch s = none) := by
  constructor
  · intro idx title h
    simp [get_by_title, h]
  · intro s h
    simp [handleSearch, h]

theorem c4_blank_title_rejected_witness :
    trimStr "   " = "" ∧
    get_by_title [] "   " = .error .invalidArgument ∧
    handleSearch "   " = none :=
  ⟨by decide, c4_blank_title_rejected.1 [] "   " (by decide),
    c4_blank_title_rejected.2 "   " (by decide)⟩

/-- C6: title lookup is case- and surrounding-whitespace-insensitive —
`get_by_title " 3am "`, `get_by_title "3AM"` and `get_by_title "3am"` all
return the same Song when the index has one under "3am"; the frontend trims
the search string before sending it. -/
theorem c6_title_lookup_insensitive :
    (∀ idx : List (String × Song), ∀ song : Song,
        List.lookup "3am" idx = some song →
          get_by_title idx " 3am " = .ok song ∧
          get_by_title idx "3AM" = .ok song ∧
          get_by_title idx "3am" = .ok song) ∧
    (∀ s, trimStr s ≠ "" → handleSearch s = some (trimStr s)) := by
  constructor
  · intro idx song hl
    have t1 : trimStr " 3am " = "3am" := by decide
    have n1 : normalizeTitle " 3am " = "3am" := by decide
    have t2 : trimStr "3AM" = "3AM" := by decide
    have n2 : normalizeTitle "3AM" = "3am" := by decide
    have t3 : trimStr "3am" = "3am" := by decide
    have n3 : normalizeTitle "3am" = "3am" := by decide
    refine ⟨?_, ?_, ?_⟩ <;> simp [get_by_title, t1, n1, t2, n2, t3, n3, hl]
  · intro s hs
    simp [handleSearch, hs]

theorem c6_title_lookup_insensitive_witness :
    List.lookup "3am" [("3am", [("title", Value.str "3am")])] =
      some [("title", Value.str "3am")] ∧
    get_by_title [("3am", [("title", Value.str "3am")])] " 3am " =
      .ok [("title", Value.str "3am")] ∧
    trimStr " 3Am " ≠ "" ∧
    handleSearch " 3Am " = some (trimStr " 3Am ") :=
  ⟨by decide,
    (c6_title_lookup_insensitive.1 [("3am", [("title", Value.str "3am")])]
      [("title", Value.str "3am")] (by decide)).1,
    by decide,
    c6_title_lookup_insensitive.2 " 3Am " (by decide)⟩

/-- C7: missing/non-numeric/zero/negative size substitutes the default 10,
missing/non-numeric page substitutes 1 (`none` models a missing or
non-numeric parameter); the frontend always requests with `PAGE_SIZE = 10`
and defaults the page number to 1. -/
theorem c7_default_substitution :
    (∀ items p, paginate items p none = paginate items p (some 10)) ∧
    (∀ items p s, s ≤ 0 → paginate items p (some s) = paginate items p (some 10)) ∧
    (∀ items s, paginate items none s = paginate items (some 1) s) ∧
    PAGE_SIZE = 10 ∧
    loadPageRequest none = loadPageRequest (some 1) ∧
    (∀ p, loadPageRequest (some p) = [("page", toString p), ("size", "10")]) := by
  refine ⟨fun items p => rfl, fun items p s hs => ?_, fun items s => rfl, rfl, rfl,
    fun p => rfl⟩
  show paginateCore items (pageOrDefault p) (sizeOrDefault (some s)) =
    paginateCore items (pageOrDefault p) (sizeOrDefault (some 10))
  have h : sizeOrDefault (some s) = sizeOrDefault (some 10) := by
    simp [sizeOrDefault, hs]
  rw [h]

theorem c7_default_substitution_witness :
    (-2 : Int) ≤ 0 ∧
    paginate [] (some 1) (some (-2)) = paginate [] (some 1) (some 10) :=
  ⟨by decide, c7_default_substitution.2.1 [] (some 1) (-2) (by decide)⟩

/-- C5: pagination never raises — for every combination of page and size
inputs it produces a well-formed PageResult by clamping; and on a fetch
failure the frontend `loadPage` leaves the view in the default state
(songs = [], page = 1, total = 0, total_pages = 1) with an error message. -/
theorem c5_never_raises_well_formed :
    (∀ items page size,
        1 ≤ (paginate items page size).page ∧
        (paginate items page size).page ≤ ((paginate items page size).total_pages : Int) ∧
        1 ≤ (paginate items page size).total_pages ∧
        (paginate items page size).total = items.length ∧
        (paginate items page size).songs.length ≤ (paginate items page size).size) ∧
    loadPage (.error ()) =
      { songs := [], page := 1, total := 0, totalPages := 1,
        searchError := "Failed to load songs." } := by
  refine ⟨fun items page size => ?_, rfl⟩
  obtain ⟨h1, h2⟩ := paginateCore_page_bounds items (pageOrDefault page) (sizeOrDefault size)
  refine ⟨h1, h2, Nat.le_max_right _ _, rfl, ?_⟩
  simp only [paginate, paginateCore]
  calc (List.take (sizeOrDefault size) _).length ≤ sizeOrDefault size :=
        (List.length_take _ _).trans_le (Nat.min_le_left _ _)
    _ = _ := rfl

/-- C8: SongsTable sorting never mutates its input — `sortedSongs` works on
a spread copy, so the `songs` array is unchanged afterwards; and with a null
sortField the rendered order is exactly the input order. -/
theorem c8_sortedSongs_no_mutation :
    (∀ h ptr field ord, ptr < h.arrays.length →
        heapGet (sortedSongs h ptr field ord).1 ptr = heapGet h ptr) ∧
    (∀ h ptr ord,
        heapGet (sortedSongs h ptr none ord).1 (sortedSongs h ptr none ord).2 =
          heapGet h ptr) := by
  constructor
  · intro h ptr field ord hlt
    cases field with
    | none =>
      simp only [sortedSongs, spreadCopy, heapGet]
      exact List.getD_append _ _ _ _ hlt
    | some f =>
      simp only [sortedSongs, spreadCopy, sortInPlace, heapGet]
      rw [getD_set_ne _ _ _ (Nat.ne_of_lt hlt) _ _]
      exact List.getD_append _ _ _ _ hlt
  · intro h ptr ord
    simp only [sortedSongs, spreadCopy, heapGet]
    rw [List.getD_append_right _ _ _ _ (le_refl _)]
    simp

theorem c8_sortedSongs_no_mutation_witness :
    0 < (Heap.mk [[[("id", Value.num 9)], [("id", Value.num 5)]]]).arrays.length ∧
    heapGet (sortedSongs ⟨[[[("id", Value.num 9)], [("id", Value.num 5)]]]⟩ 0
        (some "id") "asc").1 0 =
      heapGet ⟨[[[("id", Value.num 9)], [("id", Value.num 5)]]]⟩ 0 :=
  ⟨by decide,
    c8_sortedSongs_no_mutation.1 ⟨[[[("id", Value.num 9)], [("id", Value.num 5)]]]⟩
      0 (some "id") "asc" (by decide)⟩

/-- C9: downloadCSV with null/undefined or empty rows does nothing; for
non-empty rows it produces the header line (keys of the first row joined by
commas) followed by one comma-joined line of values per row in input order,
with no quoting of values containing commas. -/
theorem c9_downloadCSV_format :
    downloadCSV none = none ∧
    downloadCSV (some []) = none ∧
    (∀ r0 rest, downloadCSV (some (r0 :: rest)) =
        some (String.intercalate "\n"
          (String.intercalate "," (r0.map Prod.fst) ::
            (r0 :: rest).map (fun row => String.intercalate "," (rowValues row))))) ∧
    downloadCSV (some [[("title", .str "a,b"), ("n", .num 2)]]) =
      some "title,n\na,b,2" := by
  refine ⟨rfl, rfl, fun r0 rest => ?_, by decide⟩
  simp only [downloadCSV, List.map_cons]
  rw [intercalate_cons_cons]

/-- C10: handleSort toggles — selecting the currently sorted field flips
sortOrder between "asc" and "desc" with sortField unchanged, so two
consecutive selections of the same field restore the original state;
selecting a different field sets it and resets sortOrder to "asc". -/
theorem c10_handleSort_toggle :
    (∀ st field, st.sortField = some field → st.sortOrder = "asc" →
        handleSort field st = ⟨st.sortField, "desc"⟩) ∧
    (∀ st field, st.sortField = some field → st.sortOrder = "desc" →
        handleSort field st = ⟨st.sortField, "asc"⟩) ∧
    (∀ st field, st.sortField = some field →
        (st.sortOrder = "asc" ∨ st.sortOrder = "desc") →
        handleSort field (handleSort field st) = st) ∧
    (∀ st field, st.sortField ≠ some field →
        handleSort field st = ⟨some field, "asc"⟩) := by
  refine ⟨fun st field hf ho => ?_, fun st field hf ho => ?_,
    fun st field hf ho => ?_, fun st field hf => ?_⟩
  · simp [handleSort, hf, ho]
  · simp [handleSort, hf, ho]
  · obtain ⟨f, o⟩ := st
    obtain rfl : f = some field := hf
    rcases ho with rfl | rfl <;> simp [handleSort]
  · simp [handleSort, hf]

theorem c10_handleSort_toggle_witness :
    (SortState.mk (some "tempo") "asc").sortField = some "tempo" ∧
    handleSort "tempo" (handleSort "tempo" ⟨some "tempo", "asc"⟩) =
      ⟨some "tempo", "asc"⟩ ∧
    (SortState.mk none "asc").sortField ≠ some "title" ∧
    handleSort "title" ⟨none, "asc"⟩ = ⟨some "title", "asc"⟩ :=
  ⟨rfl,
    c10_handleSort_toggle.2.2.1 ⟨some "tempo", "asc"⟩ "tempo" rfl (Or.inl rfl),
    by decide,
    c10_handleSort_toggle.2.2.2 ⟨none, "asc"⟩ "title" (by decide)⟩

end SongAnalytics
